import Mathlib

set_option autoImplicit false

/-!
Verification of the jupythunder2 execution-session protocol client, workflow
runner and bounded execution history, as a shallow embedding of the Python
sources (src/jupythunder2/kernel/executor.py, src/jupythunder2/history.py,
src/jupythunder2/workflows/runner.py and src/jupythunder2/workflows/models.py).

Python dictionaries read from wire messages are modelled as records holding the
fields the code consumes; opaque payload objects are modelled by the type
JsonVal, which distinguishes only what the code distinguishes (a string payload
versus anything else, via the isinstance check in extract_text and
ExecutionDisplay.text).  Blocking channel reads are modelled by a list of
pending messages; exhausting the list corresponds to a read that would block
until the timeout and raise KernelExecutionError, so functions that drain a
channel return Option (none = timeout / fatal transport failure).
-/

namespace Jupythunder2

/-- Opaque payload value in a mime bundle; the code only ever asks whether the
value at a key is a string. -/
inductive JsonVal where
  | str (s : String)
  | other
  deriving Repr, DecidableEq

/-- Lookup in a Python dict modelled as an association list
(first binding wins, mirroring unique keys of a dict). -/
def dictGet (d : List (String × JsonVal)) (key : String) : Option JsonVal :=
  match d with
  | [] => none
  | (k, v) :: rest => if k = key then some v else dictGet rest key

/-- KernelError from executor.py: name, value, traceback of a kernel-raised
exception. -/
structure KernelError where
  name : String
  value : String
  traceback : List String
  deriving Repr, DecidableEq

/-- ExecutionDisplay from executor.py: captured display_data payload. -/
structure ExecutionDisplay where
  data : List (String × JsonVal)
  metadata : List (String × JsonVal)
  deriving Repr, DecidableEq

/-- ExecutionDisplay.text: the text/plain entry when it is a string. -/
def ExecutionDisplay.text (d : ExecutionDisplay) : Option String :=
  match dictGet d.data "text/plain" with
  | some (JsonVal.str s) => some s
  | _ => none

/-- ExecutionResult from executor.py. -/
structure ExecutionResult where
  stdout : String := ""
  stderr : String := ""
  result : Option String := none
  execution_count : Option Int := none
  displays : List ExecutionDisplay := []
  error : Option KernelError := none
  deriving Repr, DecidableEq

/-- ExecutionResult.succeeded: true iff no error. -/
def ExecutionResult.succeeded (r : ExecutionResult) : Bool :=
  r.error.isNone

/-- KernelSession.extract_text staticmethod: the text/plain entry of a mime
bundle when it is a string. -/
def extract_text (data : List (String × JsonVal)) : Option String :=
  match dictGet data "text/plain" with
  | some (JsonVal.str s) => some s
  | _ => none

/-- Content of one IOPub broadcast-stream message, as consumed by
KernelSession.consume_iopub (fields defaulted exactly as the .get calls do).
The constructor named unrecognized stands for every msg_type the code does not
branch on (it falls through the if/elif chain). -/
inductive IOPubContent where
  | status (execution_state : String)
  | stream (name : String) (text : String)
  | executeResult (data : List (String × JsonVal))
  | displayData (data : List (String × JsonVal)) (metadata : List (String × JsonVal))
  | errorMsg (ename : String) (evalue : String) (traceback : List String)
  | unrecognized
  deriving Repr, DecidableEq

/-- One IOPub message: the parent_header msg_id it correlates to, plus its
content. -/
structure IOPubMsg where
  parent_msg_id : String
  content : IOPubContent
  deriving Repr, DecidableEq

/-- One shell-channel reply: the parent_header msg_id plus the content fields
read by KernelSession.execute and get_shell_reply. Each field is optional
because the Python code reads it with .get. -/
structure ShellReply where
  parent_msg_id : String
  status : Option String := none
  execution_count : Option Int := none
  ename : Option String := none
  evalue : Option String := none
  traceback : Option (List String) := none
  deriving Repr, DecidableEq

/-- Body of the if/elif dispatch in KernelSession.consume_iopub for one
matching, non-idle message: updates the ExecutionResult in place.  The idle
status check is handled by the driving loop, matching the Python control flow
where the break precedes this dispatch. -/
def processIOPubContent (c : IOPubContent) (r : ExecutionResult) : ExecutionResult :=
  match c with
  | IOPubContent.status _ => r
  | IOPubContent.stream name text =>
      if name = "stdout" then { r with stdout := r.stdout ++ text }
      else if name = "stderr" then { r with stderr := r.stderr ++ text }
      else r
  | IOPubContent.executeResult data =>
      match extract_text data with
      | some s => if s = "" then r else { r with result := some s }
      | none => r
  | IOPubContent.displayData data metadata =>
      { r with displays := r.displays ++ [⟨data, metadata⟩] }
  | IOPubContent.errorMsg ename evalue tb =>
      { r with error := some ⟨ename, evalue, tb⟩ }
  | IOPubContent.unrecognized => r

/-- Whether a message content is an idle status transition (the loop-break
condition in KernelSession.consume_iopub). -/
def isIdleStatus (c : IOPubContent) : Bool :=
  match c with
  | IOPubContent.status st => st = "idle"
  | _ => false

/-- KernelSession.consume_iopub: drain the broadcast stream, skipping messages
whose parent msg_id differs from the current request, dispatching matching
messages into the ExecutionResult, stopping at the matching idle status.
Returns none when the pending messages are exhausted without an idle status
(the blocking read would time out and raise KernelExecutionError). -/
def consume_iopub (msg_id : String) : List IOPubMsg → ExecutionResult → Option ExecutionResult
  | [], _ => none
  | m :: rest, r =>
      if m.parent_msg_id = msg_id then
        if isIdleStatus m.content then some r
        else consume_iopub msg_id rest (processIOPubContent m.content r)
      else consume_iopub msg_id rest r

/-- KernelSession.get_shell_reply: pull shell messages until one whose
parent msg_id matches the request, returning its content; none models the
timeout (KernelExecutionError). -/
def get_shell_reply (msg_id : String) : List ShellReply → Option ShellReply
  | [] => none
  | m :: rest =>
      if m.parent_msg_id = msg_id then some m else get_shell_reply msg_id rest

/-- KernelSession.execute, given the request id issued for the code and the
pending messages of the two channels: waits for the shell reply, records the
execution counter, drains the IOPub stream into the result, then overwrites the
error from the reply fields when the reply status is error.  Returns none on a
timeout of either channel (KernelExecutionError). -/
def KernelSession.execute (msg_id : String) (shell : List ShellReply)
    (iopub : List IOPubMsg) : Option ExecutionResult :=
  match get_shell_reply msg_id shell with
  | none => none
  | some reply =>
      let r0 : ExecutionResult := { execution_count := reply.execution_count }
      match consume_iopub msg_id iopub r0 with
      | none => none
      | some r =>
          if reply.status = some "error" then
            some { r with error := some ⟨reply.ename.getD "Error",
                                        reply.evalue.getD "",
                                        (reply.traceback.getD [])⟩ }
          else some r

theorem get_shell_reply_filter (msg_id : String) (p : ShellReply → Bool)
    (hp : ∀ m : ShellReply, m.parent_msg_id = msg_id → p m = true)
    (shell : List ShellReply) :
    get_shell_reply msg_id (shell.filter p) = get_shell_reply msg_id shell := by
  induction shell with
  | nil => rfl
  | cons m rest ih =>
      by_cases h : m.parent_msg_id = msg_id
      · simp [List.filter, hp m h, get_shell_reply, h]
      · by_cases hpm : p m
        · simp [List.filter, hpm, get_shell_reply, h, ih]
        · simp [List.filter, hpm, get_shell_reply, h, ih]

theorem consume_iopub_filter (msg_id : String) (p : IOPubMsg → Bool)
    (hp : ∀ m : IOPubMsg, m.parent_msg_id = msg_id → p m = true)
    (iopub : List IOPubMsg) (r : ExecutionResult) :
    consume_iopub msg_id (iopub.filter p) r = consume_iopub msg_id iopub r := by
  induction iopub generalizing r with
  | nil => rfl
  | cons m rest ih =>
      by_cases h : m.parent_msg_id = msg_id
      · by_cases hi : isIdleStatus m.content
        · simp [List.filter, hp m h, consume_iopub, h, hi]
        · simp [List.filter, hp m h, consume_iopub, h, hi, ih]
      · by_cases hpm : p m
        · simp [List.filter, hpm, consume_iopub, h, ih]
        · simp [List.filter, hpm, consume_iopub, h, ih]

theorem execute_filter (msg_id : String) (ps : ShellReply → Bool)
    (pi : IOPubMsg → Bool)
    (hs : ∀ m : ShellReply, m.parent_msg_id = msg_id → ps m = true)
    (hi : ∀ m : IOPubMsg, m.parent_msg_id = msg_id → pi m = true)
    (shell : List ShellReply) (iopub : List IOPubMsg) :
    KernelSession.execute msg_id (shell.filter ps) (iopub.filter pi) =
      KernelSession.execute msg_id shell iopub := by
  unfold KernelSession.execute
  rw [get_shell_reply_filter msg_id ps hs shell]
  cases get_shell_reply msg_id shell with
  | none => rfl
  | some reply =>
      dsimp only
      rw [consume_iopub_filter msg_id pi hi iopub]

/-- C1: execute for request A aggregates only the events whose parent
identifier equals A into its ExecutionResult, and the result is unchanged when
the events tagged with another request id B are removed from both channels
(wherever they appear); B-tagged events are discarded without affecting any
field. -/
theorem execute_aggregates_only_matching_request (A B : String)
    (shell : List ShellReply) (iopub : List IOPubMsg) (hAB : A ≠ B) :
    KernelSession.execute A shell iopub =
      KernelSession.execute A (shell.filter (fun m => m.parent_msg_id = A))
        (iopub.filter (fun m => m.parent_msg_id = A)) ∧
    KernelSession.execute A shell iopub =
      KernelSession.execute A (shell.filter (fun m => ¬ m.parent_msg_id = B))
        (iopub.filter (fun m => ¬ m.parent_msg_id = B)) := by
  constructor
  · exact (execute_filter A _ _
      (fun m h => by simp [h]) (fun m h => by simp [h]) shell iopub).symm
  · exact (execute_filter A _ _
      (fun m h => by simp [h, hAB]) (fun m h => by simp [h, hAB])
      shell iopub).symm

/-- Concrete two-request shell channel used by the C1 witness. -/
def c1Shell : List ShellReply :=
  [{ parent_msg_id := "b", status := some "ok", execution_count := some 1 },
   { parent_msg_id := "a", status := some "ok", execution_count := some 2 }]

/-- Concrete two-request broadcast stream used by the C1 witness. -/
def c1Iopub : List IOPubMsg :=
  [⟨"b", IOPubContent.stream "stdout" "bb"⟩,
   ⟨"a", IOPubContent.stream "stdout" "hi"⟩,
   ⟨"b", IOPubContent.status "idle"⟩,
   ⟨"a", IOPubContent.status "idle"⟩]

/-- Witness for C1 at a concrete interleaved pair of channels. -/
theorem execute_aggregates_only_matching_request_witness :
    ("a" : String) ≠ "b" ∧
    (KernelSession.execute "a" c1Shell c1Iopub =
      KernelSession.execute "a"
        (c1Shell.filter (fun m => m.parent_msg_id = "a"))
        (c1Iopub.filter (fun m => m.parent_msg_id = "a")) ∧
    KernelSession.execute "a" c1Shell c1Iopub =
      KernelSession.execute "a"
        (c1Shell.filter (fun m => ¬ m.parent_msg_id = "b"))
        (c1Iopub.filter (fun m => ¬ m.parent_msg_id = "b"))) :=
  ⟨by decide,
   execute_aggregates_only_matching_request "a" "b" c1Shell c1Iopub (by decide)⟩

/-! ## Error precedence and result precedence in execute (C4, C5) -/

/-- Shell channel for the C4 scenario: the single reply for request m has
status error with its own ename, distinct from the stream error event. -/
def c4Shell : List ShellReply :=
  [{ parent_msg_id := "m", status := some "error", execution_count := some 3,
     ename := some "ShellE", evalue := some "shell value",
     traceback := some ["t1"] }]

/-- Broadcast stream for the C4 scenario: an error event for request m sets the
error before the idle status ends the drain. -/
def c4Iopub : List IOPubMsg :=
  [⟨"m", IOPubContent.errorMsg "StreamE" "stream value" []⟩,
   ⟨"m", IOPubContent.status "idle"⟩]

/-- Counterexample to C4: the stream error event populates the error with name
StreamE, yet the returned ExecutionResult carries the reply-channel name
ShellE — the reply fields overwrote the stream-populated error instead of
being skipped. -/
theorem execute_reply_error_overwrites_counterexample :
    ((KernelSession.execute "m" c4Shell c4Iopub).bind
        ExecutionResult.error).map KernelError.name = some "ShellE" ∧
    ((KernelSession.execute "m" c4Shell c4Iopub).bind
        ExecutionResult.error).map KernelError.name ≠ some "StreamE" := by
  constructor
  · rfl
  · decide

/-- C4 amended: when the reply status is error, execute unconditionally
overwrites ExecutionResult.error with the reply-channel fields, replacing any
error already populated from a stream error event; when the reply status is
not error, the stream-populated error is kept. -/
theorem execute_reply_error_overwrite (msg_id : String)
    (shell : List ShellReply) (iopub : List IOPubMsg)
    (reply : ShellReply) (r : ExecutionResult)
    (hr : get_shell_reply msg_id shell = some reply)
    (hc : consume_iopub msg_id iopub
        { execution_count := reply.execution_count } = some r) :
    KernelSession.execute msg_id shell iopub =
      some (if reply.status = some "error" then
              { r with error := some ⟨reply.ename.getD "Error",
                                     reply.evalue.getD "",
                                     (reply.traceback.getD [])⟩ }
            else r) := by
  unfold KernelSession.execute
  rw [hr]
  dsimp only
  rw [hc]
  by_cases hs : reply.status = some "error" <;> simp [hs]

/-- The shell reply of the C4 scenario, named for the witness. -/
def c4Reply : ShellReply :=
  { parent_msg_id := "m", status := some "error", execution_count := some 3,
    ename := some "ShellE", evalue := some "shell value",
    traceback := some ["t1"] }

/-- The drained stream state of the C4 scenario, named for the witness. -/
def c4Drained : ExecutionResult :=
  { execution_count := some 3,
    error := some ⟨"StreamE", "stream value", []⟩ }

/-- Witness for the amended C4 at the concrete scenario. -/
theorem execute_reply_error_overwrite_witness :
    get_shell_reply "m" c4Shell = some c4Reply ∧
    consume_iopub "m" c4Iopub { execution_count := c4Reply.execution_count }
      = some c4Drained ∧
    KernelSession.execute "m" c4Shell c4Iopub =
      some (if c4Reply.status = some "error" then
              { c4Drained with error := some ⟨c4Reply.ename.getD "Error",
                                             c4Reply.evalue.getD "",
                                             (c4Reply.traceback.getD [])⟩ }
            else c4Drained) :=
  ⟨by decide, by decide,
   execute_reply_error_overwrite "m" c4Shell c4Iopub c4Reply c4Drained
     (by decide) (by decide)⟩

/-- Shell channel for the C5 scenario: a plain ok reply for request m. -/
def c5Shell : List ShellReply :=
  [{ parent_msg_id := "m", status := some "ok", execution_count := some 1 }]

/-- Broadcast stream for the C5 scenario: an execute_result with text 5, then
a display_data event carrying text/plain 7, then idle. -/
def c5Iopub : List IOPubMsg :=
  [⟨"m", IOPubContent.executeResult [("text/plain", JsonVal.str "5")]⟩,
   ⟨"m", IOPubContent.displayData [("text/plain", JsonVal.str "7")] []⟩,
   ⟨"m", IOPubContent.status "idle"⟩]

/-- Counterexample to C5: a display event with a text/plain entry arriving
after an execute_result does not overwrite result — result stays at the
execute_result text 5 instead of the display text 7. -/
theorem display_does_not_set_result_counterexample :
    (KernelSession.execute "m" c5Shell c5Iopub).map ExecutionResult.result
      = some (some "5") ∧
    (KernelSession.execute "m" c5Shell c5Iopub).map ExecutionResult.result
      ≠ some (some "7") := by
  constructor
  · rfl
  · decide

theorem processIOPubContent_result_congr (c : IOPubContent)
    (r r' : ExecutionResult) (h : r.result = r'.result) :
    (processIOPubContent c r).result = (processIOPubContent c r').result := by
  cases c with
  | status s => simpa using h
  | stream n t =>
      by_cases h1 : n = "stdout" <;> by_cases h2 : n = "stderr" <;>
        simp [processIOPubContent, h1, h2, h]
  | executeResult data =>
      cases hx : extract_text data with
      | none => simp [processIOPubContent, hx, h]
      | some s =>
          by_cases hs : s = "" <;> simp [processIOPubContent, hx, hs, h]
  | displayData d m => simpa using h
  | errorMsg a b tb => simp [processIOPubContent, h]
  | unrecognized => simpa using h

theorem consume_iopub_result_congr (msg_id : String) (l : List IOPubMsg)
    (r r' : ExecutionResult) (h : r.result = r'.result) :
    (consume_iopub msg_id l r).map ExecutionResult.result =
      (consume_iopub msg_id l r').map ExecutionResult.result := by
  induction l generalizing r r' with
  | nil => rfl
  | cons m rest ih =>
      by_cases hm : m.parent_msg_id = msg_id
      · by_cases hi : isIdleStatus m.content
        · simp [consume_iopub, hm, hi, h]
        · simp only [consume_iopub, hm, hi, if_true, if_false]
          exact ih _ _ (processIOPubContent_result_congr m.content r r' h)
      · simp only [consume_iopub, hm, if_false]
        exact ih _ _ h

/-- C5 amended: a display_data event never modifies result — inserting one
anywhere into the broadcast stream leaves the result field of the drained
ExecutionResult unchanged (only execute_result events set result, so a display
event carrying text/plain that arrives after an execute_result does not
overwrite it). -/
theorem displayData_never_changes_result (msg_id : String)
    (l1 l2 : List IOPubMsg) (d m : List (String × JsonVal))
    (r : ExecutionResult) :
    (consume_iopub msg_id
        (l1 ++ ⟨msg_id, IOPubContent.displayData d m⟩ :: l2) r).map
        ExecutionResult.result =
      (consume_iopub msg_id (l1 ++ l2) r).map ExecutionResult.result := by
  induction l1 generalizing r with
  | nil =>
      simp only [List.nil_append, consume_iopub, if_pos rfl]
      show (consume_iopub msg_id l2
        (processIOPubContent (IOPubContent.displayData d m) r)).map
          ExecutionResult.result =
        (consume_iopub msg_id l2 r).map ExecutionResult.result
      exact consume_iopub_result_congr msg_id l2 _ r rfl
  | cons m1 l1 ih =>
      by_cases hm : m1.parent_msg_id = msg_id
      · by_cases hi : isIdleStatus m1.content
        · simp [consume_iopub, hm, hi]
        · simp only [List.cons_append, consume_iopub, hm, hi, if_true, if_false]
          exact ih _
      · simp only [List.cons_append, consume_iopub, hm, if_false]
        exact ih _

/-! ## Execution history (src/jupythunder2/history.py) -/

/-- ExecutedCell from history.py: flattened record of one executed cell. -/
structure ExecutedCell where
  code : String
  stdout : String
  stderr : String
  result : Option String
  error_name : Option String
  error_value : Option String
  traceback : List String := []
  execution_count : Option Int := none
  deriving Repr, DecidableEq

/-- Python list slice l[-n:] for n greater or equal to zero: the whole list
when n is zero (since -0 is 0), otherwise the suffix of length min n (length l).
Used by ExecutionHistory in its constructor, in add and in recent. -/
def pySliceLast {α : Type} (n : Nat) (l : List α) : List α :=
  if n = 0 then l else l.drop (l.length - n)

/-- ExecutionHistory from history.py: a limit plus the stored entries. -/
structure ExecutionHistory where
  limit : Nat
  entries : List ExecutedCell
  deriving Repr, DecidableEq

/-- ExecutionHistory.__init__: keeps only the last limit entries of the given
list (the slice list(entries or [])[-limit:]). -/
def ExecutionHistory.init (limit : Nat) (entries : List ExecutedCell) :
    ExecutionHistory :=
  ⟨limit, pySliceLast limit entries⟩

/-- ExecutionHistory.add: append, then truncate to the last limit entries when
the length exceeds the limit. -/
def ExecutionHistory.add (h : ExecutionHistory) (cell : ExecutedCell) :
    ExecutionHistory :=
  let entries := h.entries ++ [cell]
  if entries.length > h.limit then { h with entries := pySliceLast h.limit entries }
  else { h with entries := entries }

/-- ExecutionHistory.recent: all entries when count is not given, otherwise the
slice entries[-count:] (non-negative counts modelled; the claims only concern
those). -/
def ExecutionHistory.recent (h : ExecutionHistory) (count : Option Nat) :
    List ExecutedCell :=
  match count with
  | none => h.entries
  | some c => pySliceLast c h.entries

/-- build_executed_cell from history.py: flatten a (code, ExecutionResult) pair
into an ExecutedCell. -/
def build_executed_cell (code : String) (result : ExecutionResult) : ExecutedCell :=
  { code := code
    stdout := result.stdout
    stderr := result.stderr
    result := result.result
    error_name := result.error.map KernelError.name
    error_value := result.error.map KernelError.value
    traceback := (result.error.map KernelError.traceback).getD []
    execution_count := result.execution_count }

/-- The JSON object written for one cell by ExecutedCell.to_dict (asdict):
every field of the dataclass is present, strings stay strings, None becomes
null.  JSON dump and parse of such an object is faithful on these field types,
so serialization is modelled as this record directly. -/
structure CellDict where
  code : String
  stdout : String
  stderr : String
  result : Option String
  error_name : Option String
  error_value : Option String
  traceback : List String
  execution_count : Option Int
  deriving Repr, DecidableEq

/-- ExecutedCell.to_dict: dataclass asdict, all fields present. -/
def ExecutedCell.to_dict (c : ExecutedCell) : CellDict :=
  ⟨c.code, c.stdout, c.stderr, c.result, c.error_name, c.error_value,
   c.traceback, c.execution_count⟩

/-- ExecutedCell.from_dict applied to an object of the shape to_dict emits:
each .get finds its key, str() on a string is the identity, and list() copies
the traceback, so every field is carried over unchanged. -/
def ExecutedCell.from_dict (d : CellDict) : ExecutedCell :=
  ⟨d.code, d.stdout, d.stderr, d.result, d.error_name, d.error_value,
   d.traceback, d.execution_count⟩

/-- ExecutionHistory.save / to_json: the file contents after save, as the list
of serialized entries. -/
def ExecutionHistory.save (h : ExecutionHistory) : List CellDict :=
  h.entries.map ExecutedCell.to_dict

/-- ExecutionHistory.load: none models a path with no backing file (returns an
empty history); some ds models a file holding the serialized list ds. -/
def ExecutionHistory.load (file : Option (List CellDict)) (limit : Nat) :
    ExecutionHistory :=
  match file with
  | none => ExecutionHistory.init limit []
  | some ds => ExecutionHistory.init limit (ds.map ExecutedCell.from_dict)

theorem pySliceLast_eq_rtake {α : Type} (n : Nat) (l : List α) (hn : n ≠ 0) :
    pySliceLast n l = l.rtake n := by
  simp [pySliceLast, hn, List.rtake]

theorem pySliceLast_of_le {α : Type} (n : Nat) (l : List α)
    (h : l.length ≤ n) : pySliceLast n l = l := by
  by_cases hn : n = 0
  · simp [pySliceLast, hn]
  · simp [pySliceLast, hn, Nat.sub_eq_zero_of_le h]

theorem length_pySliceLast_le {α : Type} (n : Nat) (l : List α) (hn : n ≠ 0) :
    (pySliceLast n l).length ≤ n := by
  simp only [pySliceLast, hn, if_false, List.length_drop]
  omega

theorem take_append_take {α : Type} (n : Nat) (a b : List α) :
    (a ++ b.take n).take n = (a ++ b).take n := by
  rw [List.take_append_eq_append_take, List.take_append_eq_append_take,
    List.take_take]
  congr 1
  exact congrArg (b.take ·) (Nat.min_eq_left (Nat.sub_le n a.length))

theorem pySliceLast_append_absorb {α : Type} (L : Nat) (hL : L ≠ 0)
    (xs ys : List α) :
    pySliceLast L (pySliceLast L xs ++ ys) = pySliceLast L (xs ++ ys) := by
  rw [pySliceLast_eq_rtake _ _ hL, pySliceLast_eq_rtake _ _ hL,
    pySliceLast_eq_rtake _ _ hL, List.rtake_eq_reverse_take_reverse,
    List.rtake_eq_reverse_take_reverse, List.rtake_eq_reverse_take_reverse]
  rw [List.reverse_append, List.reverse_reverse, List.reverse_append]
  rw [take_append_take]

theorem addAll_entries (L : Nat) (hL : 0 < L) :
    ∀ (cells : List ExecutedCell) (h : ExecutionHistory), h.limit = L →
      h.entries.length ≤ L →
      (cells.foldl ExecutionHistory.add h).entries =
        pySliceLast L (h.entries ++ cells) := by
  intro cells
  induction cells with
  | nil =>
      intro h hlim hlen
      simp [pySliceLast_of_le L h.entries hlen]
  | cons c cs ih =>
      intro h hlim hlen
      have hstep : (h.add c).entries = pySliceLast L (h.entries ++ [c]) := by
        unfold ExecutionHistory.add
        dsimp only
        split
        · rw [hlim]
        · next hgt =>
            have hle : (h.entries ++ [c]).length ≤ L := by
              rw [← hlim]; omega
            rw [pySliceLast_of_le L _ hle]
      have hlim' : (h.add c).limit = L := by
        unfold ExecutionHistory.add
        dsimp only
        split <;> exact hlim
      have hlen' : (h.add c).entries.length ≤ L := by
        rw [hstep]
        exact length_pySliceLast_le L _ (by omega)
      calc ((c :: cs).foldl ExecutionHistory.add h).entries
        = (cs.foldl ExecutionHistory.add (h.add c)).entries := rfl
        _ = pySliceLast L ((h.add c).entries ++ cs) := ih (h.add c) hlim' hlen'
        _ = pySliceLast L (pySliceLast L (h.entries ++ [c]) ++ cs) := by
              rw [hstep]
        _ = pySliceLast L ((h.entries ++ [c]) ++ cs) :=
              pySliceLast_append_absorb L (by omega) _ _
        _ = pySliceLast L (h.entries ++ (c :: cs)) := by
              rw [List.append_assoc]; rfl

/-- C3: with a positive limit L, after every add the number of stored entries
is at most L, and recent() returns exactly the last min(L, number of
additions) added cells in arrival order (FIFO eviction of the oldest). -/
theorem history_bounded_fifo (L : Nat) (hL : 0 < L)
    (cells : List ExecutedCell) :
    (∀ n : Nat,
      (((cells.take n).foldl ExecutionHistory.add ⟨L, []⟩).entries.length ≤ L))
    ∧ (cells.foldl ExecutionHistory.add ⟨L, []⟩).recent none =
        cells.drop (cells.length - L) := by
  constructor
  · intro n
    rw [addAll_entries L hL (cells.take n) ⟨L, []⟩ rfl (by simp)]
    exact length_pySliceLast_le L _ (by omega)
  · rw [show (cells.foldl ExecutionHistory.add ⟨L, []⟩).recent none =
        (cells.foldl ExecutionHistory.add ⟨L, []⟩).entries from rfl]
    rw [addAll_entries L hL cells ⟨L, []⟩ rfl (by simp)]
    simp [pySliceLast, Nat.pos_iff_ne_zero.mp hL]

/-- Sample history entry used by concrete witnesses. -/
def sampleCell (c : String) : ExecutedCell :=
  { code := c, stdout := "", stderr := "", result := none,
    error_name := none, error_value := none }

/-- Witness for C3 with limit 2 and three additions: the bound holds after the
second add and the final entries are the last two cells. -/
theorem history_bounded_fifo_witness :
    0 < 2 ∧
    ((([sampleCell "a", sampleCell "b", sampleCell "c"].take 2).foldl
        ExecutionHistory.add ⟨2, []⟩).entries.length ≤ 2) ∧
    ([sampleCell "a", sampleCell "b", sampleCell "c"].foldl
        ExecutionHistory.add ⟨2, []⟩).recent none =
      [sampleCell "a", sampleCell "b", sampleCell "c"].drop
        ([sampleCell "a", sampleCell "b", sampleCell "c"].length - 2) :=
  ⟨by decide,
   (history_bounded_fifo 2 (by decide)
      [sampleCell "a", sampleCell "b", sampleCell "c"]).1 2,
   (history_bounded_fifo 2 (by decide)
      [sampleCell "a", sampleCell "b", sampleCell "c"]).2⟩

/-- C8: save followed by load with the same limit reproduces a history whose
recent() output is identical, and load of a path with no backing file returns
an empty history. -/
theorem save_load_roundtrip (h : ExecutionHistory) (L : Nat)
    (hinv : h.entries.length ≤ h.limit) :
    (ExecutionHistory.load (some h.save) h.limit).recent none = h.recent none
    ∧ (ExecutionHistory.load none L).recent none = [] := by
  constructor
  · show (ExecutionHistory.init h.limit
      ((h.entries.map ExecutedCell.to_dict).map ExecutedCell.from_dict)).entries
      = h.entries
    rw [List.map_map]
    have hid : h.entries.map (ExecutedCell.from_dict ∘ ExecutedCell.to_dict)
        = h.entries := by
      rw [show ExecutedCell.from_dict ∘ ExecutedCell.to_dict = id from
        funext fun c => rfl, List.map_id]
    rw [hid]
    exact pySliceLast_of_le _ _ hinv
  · show (ExecutionHistory.init L []).entries = []
    show pySliceLast L [] = []
    unfold pySliceLast
    split
    · rfl
    · simp

/-- Witness for C8 at a two-entry history with limit 5. -/
theorem save_load_roundtrip_witness :
    (([sampleCell "x", sampleCell "y"] : List ExecutedCell).length ≤ 5) ∧
    ((ExecutionHistory.load
        (some (ExecutionHistory.save ⟨5, [sampleCell "x", sampleCell "y"]⟩)) 5).recent none
      = (ExecutionHistory.recent ⟨5, [sampleCell "x", sampleCell "y"]⟩ none)
    ∧ (ExecutionHistory.load none 7).recent none = []) :=
  ⟨by decide,
   save_load_roundtrip ⟨5, [sampleCell "x", sampleCell "y"]⟩ 7 (by decide)⟩

/-- C10: recent with count 0 returns all stored entries, exactly like recent
with no count (Python slice semantics: entries[-0:] is the whole list). -/
theorem recent_zero_returns_all (h : ExecutionHistory) :
    h.recent (some 0) = h.recent none := by
  simp [ExecutionHistory.recent, pySliceLast]

/-! ## Workflow model and runner (src/jupythunder2/workflows) -/

/-- PlanStep from agent/planning.py (content recorded in a plan outcome). -/
structure PlanStep where
  id : Int
  name : String
  description : String
  rationale : Option String := none
  dependencies : Option (List Int) := none
  deriving Repr, DecidableEq

/-- ExecutionPlan from agent/planning.py. -/
structure ExecutionPlan where
  title : String
  summary : String
  steps : List PlanStep := []
  deriving Repr, DecidableEq

/-- DebugSuggestion from debugging/suggestions.py. -/
structure DebugSuggestion where
  summary : String
  root_cause : String
  recommendation : String
  patch : Option String := none
  deriving Repr, DecidableEq

/-- WorkflowStep from workflows/models.py: a dataclass tagged by step_type,
the other fields optional exactly as in the source. -/
structure WorkflowStep where
  step_type : String
  name : Option String := none
  description : String := ""
  goal : Option String := none
  context : Option String := none
  code : Option String := none
  deriving Repr, DecidableEq

/-- Workflow from workflows/models.py. -/
structure Workflow where
  name : String
  description : String := ""
  steps : List WorkflowStep := []
  deriving Repr, DecidableEq

/-- WorkflowStepOutcome from workflows/runner.py. -/
structure WorkflowStepOutcome where
  step : WorkflowStep
  plan : Option ExecutionPlan := none
  execution : Option ExecutionResult := none
  suggestion : Option DebugSuggestion := none
  deriving Repr, DecidableEq

/-- WorkflowRunResult from workflows/runner.py. -/
structure WorkflowRunResult where
  workflow : Workflow
  outcomes : List WorkflowStepOutcome := []
  failed_step_index : Option Nat := none
  deriving Repr, DecidableEq

/-- WorkflowRunResult.success: true iff no failed step index. -/
def WorkflowRunResult.success (r : WorkflowRunResult) : Bool :=
  r.failed_step_index.isNone

/-- The Planning collaborator: draft_plan(goal, context).  The runner calls it
as a total function of the goal and context; its returned content is
unconstrained. -/
abbrev PlanFn := String → Option String → ExecutionPlan

/-- The Debugging collaborator: suggest_fix(failing_code, error_name,
error_value, traceback, history entries).  An Except.error models the call
raising. -/
abbrev DebugFn :=
  String → String → String → List String → List ExecutedCell →
    Except String DebugSuggestion

/-- The Execution Session as the runner sees it: session.execute(code) keyed
by the code of the step.  An Except.error models a KernelExecutionError
(backend start failure, channel timeout, transport failure). -/
abbrev ExecFn := String → Except String ExecutionResult

/-- An exception escaping WorkflowRunner.run: either a KernelExecutionError
from the session or an exception raised by the debugging collaborator.  The
Python run method has no handler for either, so both propagate to the
caller. -/
inductive RunFault where
  | kernel (msg : String)
  | debug (msg : String)
  deriving Repr, DecidableEq

/-- The for-loop body of WorkflowRunner.run over the remaining steps, carrying
the enumerate index, the outcomes accumulated so far, the failed index and the
shared history.  A plan step records the drafted plan and continues; an
execute step runs the code, appends the executed cell to the history, and on a
failed result optionally attaches a suggestion, records the index and stops;
steps of any other type fall through both branches.  Exceptions from the
session or the debugging collaborator propagate as Except.error. -/
def WorkflowRunner.runSteps (planFn : PlanFn) (debugFn : Option DebugFn)
    (execFn : ExecFn) (suggest : Bool) :
    Nat → List WorkflowStep → List WorkflowStepOutcome → Option Nat →
      ExecutionHistory →
      Except RunFault (List WorkflowStepOutcome × Option Nat × ExecutionHistory)
  | _, [], outcomes, failed, history => Except.ok (outcomes, failed, history)
  | index, step :: rest, outcomes, failed, history =>
      if step.step_type = "plan" then
        let outcome : WorkflowStepOutcome :=
          { step := step, plan := some (planFn (step.goal.getD "") step.context) }
        WorkflowRunner.runSteps planFn debugFn execFn suggest (index + 1) rest
          (outcomes ++ [outcome]) failed history
      else if step.step_type = "execute" then
        match execFn (step.code.getD "") with
        | Except.error msg => Except.error (RunFault.kernel msg)
        | Except.ok execution =>
            let history' :=
              history.add (build_executed_cell (step.code.getD "") execution)
            let outcome : WorkflowStepOutcome :=
              { step := step, execution := some execution }
            if execution.succeeded then
              WorkflowRunner.runSteps planFn debugFn execFn suggest (index + 1)
                rest (outcomes ++ [outcome]) failed history'
            else
              match debugFn with
              | some f =>
                  if suggest then
                    match f (step.code.getD "")
                        ((execution.error.map KernelError.name).getD "UnknownError")
                        ((execution.error.map KernelError.value).getD "")
                        ((execution.error.map KernelError.traceback).getD [])
                        history'.entries with
                    | Except.error m => Except.error (RunFault.debug m)
                    | Except.ok s =>
                        Except.ok (outcomes ++ [{ outcome with suggestion := some s }],
                          some index, history')
                  else
                    Except.ok (outcomes ++ [outcome], some index, history')
              | none =>
                  Except.ok (outcomes ++ [outcome], some index, history')
      else
        WorkflowRunner.runSteps planFn debugFn execFn suggest (index + 1) rest
          outcomes failed history

/-- WorkflowRunner.run: drive the steps from index 0 with empty outcomes and no
failed index, then package the outcomes into a WorkflowRunResult together with
the updated history.  The final history-file save is pure output and is not
modelled.  An exception from the loop escapes the method unchanged. -/
def WorkflowRunner.run (planFn : PlanFn) (debugFn : Option DebugFn)
    (execFn : ExecFn) (history : ExecutionHistory) (workflow : Workflow)
    (suggest : Bool) :
    Except RunFault (WorkflowRunResult × ExecutionHistory) :=
  match WorkflowRunner.runSteps planFn debugFn execFn suggest 0 workflow.steps
      [] none history with
  | Except.error f => Except.error f
  | Except.ok (outcomes, failed, history') =>
      Except.ok ({ workflow := workflow, outcomes := outcomes,
                   failed_step_index := failed }, history')

/-- Helper building an execute-variant step, as WorkflowStep(step_type=
"execute", code=...) does after validation. -/
def executeStep (nm : String) (code : String) : WorkflowStep :=
  { step_type := "execute", name := some nm, code := some code }

/-- Helper building a plan-variant step, as WorkflowStep(step_type="plan",
goal=...) does after validation. -/
def planStep (nm : String) (goal : String) : WorkflowStep :=
  { step_type := "plan", name := some nm, goal := some goal }

/-- The debugging collaborator never raising: every suggest_fix call returns
normally. -/
def DebugNeverFaults (debugFn : Option DebugFn) : Prop :=
  ∀ f, debugFn = some f →
    ∀ c en ev tb hs, ∃ s, f c en ev tb hs = Except.ok s

theorem runSteps_plan_prefix (planFn : PlanFn) (debugFn : Option DebugFn)
    (execFn : ExecFn) (suggest : Bool) :
    ∀ (pre : List WorkflowStep), (∀ s ∈ pre, s.step_type = "plan") →
    ∀ (tail : List WorkflowStep) (index : Nat)
      (outcomes : List WorkflowStepOutcome) (failed : Option Nat)
      (history : ExecutionHistory),
    ∃ outs : List WorkflowStepOutcome,
      WorkflowRunner.runSteps planFn debugFn execFn suggest index (pre ++ tail)
          outcomes failed history =
        WorkflowRunner.runSteps planFn debugFn execFn suggest
          (index + pre.length) tail (outcomes ++ outs) failed history ∧
      outs.map WorkflowStepOutcome.step = pre := by
  intro pre
  induction pre with
  | nil =>
      intro _ tail index outcomes failed history
      exact ⟨[], by simp, rfl⟩
  | cons s ss ih =>
      intro hall tail index outcomes failed history
      have hs : s.step_type = "plan" := hall s (by simp)
      have hss : ∀ x ∈ ss, x.step_type = "plan" := fun x hx => hall x (by simp [hx])
      obtain ⟨outs, heq, hmap⟩ := ih hss tail (index + 1)
        (outcomes ++ [{ step := s, plan := some (planFn (s.goal.getD "") s.context) }])
        failed history
      refine ⟨{ step := s, plan := some (planFn (s.goal.getD "") s.context) } :: outs,
        ?_, by simp [hmap]⟩
      show WorkflowRunner.runSteps planFn debugFn execFn suggest index
          (s :: (ss ++ tail)) outcomes failed history = _
      rw [WorkflowRunner.runSteps, if_pos hs]
      rw [heq]
      congr 1
      · simp [List.length_cons]
        omega
      · simp

/-- C9: a workflow whose steps are all of the plan variant always yields a
successful WorkflowRunResult (failed_step_index none) with one outcome per
step, regardless of what plan content the Planning collaborator returns, and
the history is untouched. -/
theorem run_all_plan_steps_succeeds (planFn : PlanFn)
    (debugFn : Option DebugFn) (execFn : ExecFn) (history : ExecutionHistory)
    (workflow : Workflow) (suggest : Bool)
    (hplan : ∀ s ∈ workflow.steps, s.step_type = "plan") :
    ∃ res : WorkflowRunResult,
      WorkflowRunner.run planFn debugFn execFn history workflow suggest =
        Except.ok (res, history) ∧
      res.failed_step_index = none ∧
      res.success = true ∧
      res.outcomes.map WorkflowStepOutcome.step = workflow.steps := by
  obtain ⟨outs, heq, hmap⟩ := runSteps_plan_prefix planFn debugFn execFn suggest
    workflow.steps hplan [] 0 [] none history
  refine ⟨{ workflow := workflow, outcomes := outs, failed_step_index := none },
    ?_, rfl, rfl, by simpa using hmap⟩
  unfold WorkflowRunner.run
  rw [show workflow.steps = workflow.steps ++ [] by simp, heq]
  rw [WorkflowRunner.runSteps]
  simp

/-- Witness for C9: a one-plan-step workflow with dummy collaborators. -/
theorem run_all_plan_steps_succeeds_witness :
    (∀ s ∈ ({ name := "w", steps := [planStep "p" "g"] } : Workflow).steps,
      s.step_type = "plan") ∧
    (∃ res : WorkflowRunResult,
      WorkflowRunner.run (fun _ _ => ⟨"t", "s", []⟩) none
          (fun _ => Except.ok {}) ⟨20, []⟩
          { name := "w", steps := [planStep "p" "g"] } true =
        Except.ok (res, ⟨20, []⟩) ∧
      res.failed_step_index = none ∧
      res.success = true ∧
      res.outcomes.map WorkflowStepOutcome.step =
        ({ name := "w", steps := [planStep "p" "g"] } : Workflow).steps) :=
  ⟨by decide,
   run_all_plan_steps_succeeds (fun _ _ => ⟨"t", "s", []⟩) none
     (fun _ => Except.ok {}) ⟨20, []⟩
     { name := "w", steps := [planStep "p" "g"] } true (by decide)⟩

theorem runSteps_okfail (planFn : PlanFn) (debugFn : Option DebugFn)
    (execFn : ExecFn) (suggest : Bool) (history : ExecutionHistory)
    (rOk rFail : ExecutionResult) (e : KernelError)
    (hOk : execFn "ok" = Except.ok rOk) (hOkE : rOk.error = none)
    (hFail : execFn "fails" = Except.ok rFail) (hFailE : rFail.error = some e)
    (hdf : DebugNeverFaults debugFn) :
    ∃ o2 : WorkflowStepOutcome, o2.step = executeStep "s2" "fails" ∧
      o2.execution = some rFail ∧
      ∀ rest : List WorkflowStep,
        WorkflowRunner.runSteps planFn debugFn execFn suggest 0
            (executeStep "s1" "ok" :: executeStep "s2" "fails" :: rest)
            [] none history
          = Except.ok
              ([{ step := executeStep "s1" "ok", execution := some rOk }, o2],
               some 1,
               (history.add (build_executed_cell "ok" rOk)).add
                 (build_executed_cell "fails" rFail)) := by
  have hsucc : rOk.succeeded = true := by
    simp [ExecutionResult.succeeded, hOkE]
  have hfailsucc : rFail.succeeded = false := by
    simp [ExecutionResult.succeeded, hFailE]
  cases hdbg : debugFn with
  | none =>
      refine ⟨{ step := executeStep "s2" "fails", execution := some rFail },
        rfl, rfl, ?_⟩
      intro rest
      simp [WorkflowRunner.runSteps, executeStep, hOk, hFail, hsucc, hfailsucc]
  | some f =>
      by_cases hsug : suggest
      · obtain ⟨s, hs⟩ := hdf f hdbg "fails" e.name e.value e.traceback
          ((history.add (build_executed_cell "ok" rOk)).add
            (build_executed_cell "fails" rFail)).entries
        refine ⟨⟨executeStep "s2" "fails", none, some rFail, some s⟩,
          rfl, rfl, ?_⟩
        intro rest
        simp [WorkflowRunner.runSteps, executeStep, hOk, hFail, hsucc,
          hfailsucc, hsug, hFailE, hs]
      · refine ⟨{ step := executeStep "s2" "fails", execution := some rFail },
          rfl, rfl, ?_⟩
        intro rest
        simp [WorkflowRunner.runSteps, executeStep, hOk, hFail, hsucc,
          hfailsucc, hsug]

/-- C2: running the workflow Execute(ok), Execute(fails), Execute(never runs),
where ok succeeds and fails produces a populated error, yields
failed_step_index 1 and exactly two outcomes whose steps are the first two
steps; and the loop result does not depend on what follows the failing step at
all, so no later step of the workflow is processed. -/
theorem run_stops_at_first_failed_execute (planFn : PlanFn)
    (debugFn : Option DebugFn) (execFn : ExecFn) (history : ExecutionHistory)
    (suggest : Bool) (rOk rFail : ExecutionResult) (e : KernelError)
    (hOk : execFn "ok" = Except.ok rOk) (hOkE : rOk.error = none)
    (hFail : execFn "fails" = Except.ok rFail) (hFailE : rFail.error = some e)
    (hdf : DebugNeverFaults debugFn) :
    (∃ res : WorkflowRunResult, ∃ hist : ExecutionHistory,
      WorkflowRunner.run planFn debugFn execFn history
          { name := "w", steps := [executeStep "s1" "ok",
              executeStep "s2" "fails", executeStep "s3" "never runs"] }
          suggest
        = Except.ok (res, hist) ∧
      res.failed_step_index = some 1 ∧
      res.outcomes.length = 2 ∧
      res.outcomes.map WorkflowStepOutcome.step
        = [executeStep "s1" "ok", executeStep "s2" "fails"])
    ∧ (∀ rest rest' : List WorkflowStep,
        WorkflowRunner.runSteps planFn debugFn execFn suggest 0
            (executeStep "s1" "ok" :: executeStep "s2" "fails" :: rest)
            [] none history
          = WorkflowRunner.runSteps planFn debugFn execFn suggest 0
              (executeStep "s1" "ok" :: executeStep "s2" "fails" :: rest')
              [] none history) := by
  obtain ⟨o2, ho2step, ho2exec, hall⟩ :=
    runSteps_okfail planFn debugFn execFn suggest history rOk rFail e
      hOk hOkE hFail hFailE hdf
  constructor
  · refine ⟨⟨⟨"w", "", [executeStep "s1" "ok", executeStep "s2" "fails",
        executeStep "s3" "never runs"]⟩,
      [⟨executeStep "s1" "ok", none, some rOk, none⟩, o2], some 1⟩,
      (history.add (build_executed_cell "ok" rOk)).add
        (build_executed_cell "fails" rFail), ?_, rfl, rfl, ?_⟩
    · unfold WorkflowRunner.run
      rw [show ({ name := "w", steps := [executeStep "s1" "ok",
          executeStep "s2" "fails", executeStep "s3" "never runs"] } :
            Workflow).steps
          = executeStep "s1" "ok" :: executeStep "s2" "fails" ::
              [executeStep "s3" "never runs"] from rfl]
      rw [hall [executeStep "s3" "never runs"]]
    · simp [ho2step]
  · intro rest rest'
    rw [hall rest, hall rest']

/-- Execution oracle used by the C2 witness: the code string fails is the one
cell that produces a populated error. -/
def c2ExecFn : ExecFn := fun c =>
  if c = "fails" then Except.ok { error := some ⟨"E", "v", []⟩ }
  else Except.ok {}

/-- Witness for C2 with a concrete oracle, no debugging collaborator and an
empty history. -/
theorem run_stops_at_first_failed_execute_witness :
    c2ExecFn "ok" = Except.ok {} ∧
    ({} : ExecutionResult).error = none ∧
    c2ExecFn "fails" = Except.ok { error := some ⟨"E", "v", []⟩ } ∧
    ({ error := some ⟨"E", "v", []⟩ } : ExecutionResult).error
      = some ⟨"E", "v", []⟩ ∧
    DebugNeverFaults none ∧
    (∃ res : WorkflowRunResult, ∃ hist : ExecutionHistory,
      WorkflowRunner.run (fun _ _ => ⟨"t", "s", []⟩) none c2ExecFn ⟨20, []⟩
          { name := "w", steps := [executeStep "s1" "ok",
              executeStep "s2" "fails", executeStep "s3" "never runs"] }
          true
        = Except.ok (res, hist) ∧
      res.failed_step_index = some 1 ∧
      res.outcomes.length = 2 ∧
      res.outcomes.map WorkflowStepOutcome.step
        = [executeStep "s1" "ok", executeStep "s2" "fails"]) :=
  ⟨rfl, rfl, rfl, rfl, by intro f h; simp at h,
   (run_stops_at_first_failed_execute (fun _ _ => ⟨"t", "s", []⟩) none c2ExecFn
      ⟨20, []⟩ true {} { error := some ⟨"E", "v", []⟩ } ⟨"E", "v", []⟩
      rfl rfl rfl rfl (by intro f h; simp at h)).1⟩

/-- Counterexample to C6: when the session raises a KernelExecutionError for
an execute step (here: the oracle returns a transport failure), run does not
return a WorkflowRunResult at all — the exception propagates to the caller. -/
theorem run_kernel_fault_no_result_counterexample :
    WorkflowRunner.run (fun _ _ => ⟨"t", "s", []⟩) none
        (fun _ => Except.error "kernel start failure") ⟨20, []⟩
        ⟨"w", "", [executeStep "s1" "boom"]⟩ true
      = Except.error (RunFault.kernel "kernel start failure") := rfl

/-- C6 amended: a transport/fatal failure raised while executing a step (after
any prefix of plan steps) propagates out of WorkflowRunner.run as the raised
exception; no WorkflowRunResult is returned and no failed_step_index is
recorded. -/
theorem run_kernel_fault_propagates (planFn : PlanFn)
    (debugFn : Option DebugFn) (execFn : ExecFn) (history : ExecutionHistory)
    (suggest : Bool) (nm descr : String) (pre : List WorkflowStep)
    (st : WorkflowStep) (rest : List WorkflowStep) (msg : String)
    (hpre : ∀ s ∈ pre, s.step_type = "plan")
    (hst : st.step_type = "execute")
    (hfail : execFn (st.code.getD "") = Except.error msg) :
    WorkflowRunner.run planFn debugFn execFn history
        ⟨nm, descr, pre ++ st :: rest⟩ suggest
      = Except.error (RunFault.kernel msg) := by
  obtain ⟨outs, heq, -⟩ := runSteps_plan_prefix planFn debugFn execFn suggest
    pre hpre (st :: rest) 0 [] none history
  unfold WorkflowRunner.run
  rw [show (⟨nm, descr, pre ++ st :: rest⟩ : Workflow).steps
      = pre ++ st :: rest from rfl]
  rw [heq, WorkflowRunner.runSteps]
  simp [hst, hfail]

/-- Witness for the amended C6: a plan step followed by an execute step whose
session call times out. -/
theorem run_kernel_fault_propagates_witness :
    (∀ s ∈ [planStep "p" "g"], s.step_type = "plan") ∧
    (executeStep "s" "boom").step_type = "execute" ∧
    (fun _ => Except.error "kernel timeout" : ExecFn)
        ((executeStep "s" "boom").code.getD "") = Except.error "kernel timeout" ∧
    WorkflowRunner.run (fun _ _ => ⟨"t", "s", []⟩) none
        (fun _ => Except.error "kernel timeout") ⟨20, []⟩
        ⟨"w", "", [planStep "p" "g"] ++ executeStep "s" "boom" :: []⟩ true
      = Except.error (RunFault.kernel "kernel timeout") :=
  ⟨by decide, rfl, rfl,
   run_kernel_fault_propagates (fun _ _ => ⟨"t", "s", []⟩) none
     (fun _ => Except.error "kernel timeout") ⟨20, []⟩ true "w" ""
     [planStep "p" "g"] (executeStep "s" "boom") [] "kernel timeout"
     (by decide) rfl rfl⟩

/-- Counterexample to C7: the execute step fails (populated error E) and the
debugging collaborator raises while generating the suggestion; run then
returns no WorkflowRunResult at all — the debug fault replaces the recorded
execute failure. -/
theorem run_debug_fault_no_result_counterexample :
    WorkflowRunner.run (fun _ _ => ⟨"t", "s", []⟩)
        (some (fun _ _ _ _ _ => Except.error "debug boom"))
        (fun _ => Except.ok { error := some ⟨"E", "v", []⟩ }) ⟨20, []⟩
        ⟨"w", "", [executeStep "s1" "bad"]⟩ true
      = Except.error (RunFault.debug "debug boom") := rfl

/-- C7 amended: when an execute step fails with a populated error, suggest is
enabled, a debugging collaborator is supplied and its suggest_fix call raises,
the debugging fault propagates out of WorkflowRunner.run; no WorkflowRunResult
is returned, so the original execute failure is not recorded via
failed_step_index. -/
theorem run_debug_fault_propagates (planFn : PlanFn)
    (debugFn : Option DebugFn) (execFn : ExecFn) (history : ExecutionHistory)
    (nm descr : String) (pre : List WorkflowStep) (st : WorkflowStep)
    (rest : List WorkflowStep) (r : ExecutionResult) (e : KernelError)
    (f : DebugFn) (m : String)
    (hpre : ∀ s ∈ pre, s.step_type = "plan")
    (hst : st.step_type = "execute")
    (hexec : execFn (st.code.getD "") = Except.ok r)
    (herr : r.error = some e)
    (hdbg : debugFn = some f)
    (hf : f (st.code.getD "") e.name e.value e.traceback
        ((history.add (build_executed_cell (st.code.getD "") r)).entries)
      = Except.error m) :
    WorkflowRunner.run planFn debugFn execFn history
        ⟨nm, descr, pre ++ st :: rest⟩ true
      = Except.error (RunFault.debug m) := by
  obtain ⟨outs, heq, -⟩ := runSteps_plan_prefix planFn debugFn execFn true
    pre hpre (st :: rest) 0 [] none history
  have hsucc : r.succeeded = false := by
    simp [ExecutionResult.succeeded, herr]
  unfold WorkflowRunner.run
  rw [show (⟨nm, descr, pre ++ st :: rest⟩ : Workflow).steps
      = pre ++ st :: rest from rfl]
  rw [heq, WorkflowRunner.runSteps]
  simp [hst, hexec, hsucc, hdbg, herr, hf]

/-- Witness for the amended C7 at a concrete failing cell and always-raising
debugging collaborator. -/
theorem run_debug_fault_propagates_witness :
    (∀ s ∈ ([] : List WorkflowStep), s.step_type = "plan") ∧
    (executeStep "s" "bad").step_type = "execute" ∧
    (fun _ => Except.ok { error := some ⟨"E", "v", []⟩ } : ExecFn)
        ((executeStep "s" "bad").code.getD "")
      = Except.ok { error := some ⟨"E", "v", []⟩ } ∧
    ({ error := some ⟨"E", "v", []⟩ } : ExecutionResult).error
      = some ⟨"E", "v", []⟩ ∧
    WorkflowRunner.run (fun _ _ => ⟨"t", "s", []⟩)
        (some (fun _ _ _ _ _ => Except.error "boom"))
        (fun _ => Except.ok { error := some ⟨"E", "v", []⟩ }) ⟨20, []⟩
        ⟨"w", "", [] ++ executeStep "s" "bad" :: []⟩ true
      = Except.error (RunFault.debug "boom") :=
  ⟨by intro s hs; simp at hs, rfl, rfl, rfl,
   run_debug_fault_propagates (fun _ _ => ⟨"t", "s", []⟩)
     (some (fun _ _ _ _ _ => Except.error "boom"))
     (fun _ => Except.ok { error := some ⟨"E", "v", []⟩ }) ⟨20, []⟩ "w" ""
     [] (executeStep "s" "bad") [] { error := some ⟨"E", "v", []⟩ }
     ⟨"E", "v", []⟩ (fun _ _ _ _ _ => Except.error "boom") "boom"
     (by intro s hs; simp at hs) rfl rfl rfl rfl rfl⟩

end Jupythunder2
